import Mathlib

/-!
Verification development for the `pdrive-cli` upload tool (`src/main.rs`).

The Rust source is shallowly embedded:
  * file contents are `List Nat` (byte sequences);
  * the chunker `split_bytes` becomes a pure recursive function on the byte
    list (the `BufReader` read loop with `take(FILE_SPLIT_SIZE)`);
  * the HTTP layer is an explicit environment (`SingleEnv`, `Env`) mapping
    each request to the transport outcome / response the server produced;
  * `Result`/`panic!` become the `Outcome` type, separating the typed
    `ClientError` values from propagated transport errors and panics;
  * the `buffer_unordered(2)` combinator of the multipart part-upload phase
    becomes a small labelled transition system (`SchedStep`) whose runs
    enumerate every completion order the bounded pool of width 2 can produce.
-/

namespace PDrive

/-- `const FILE_SPLIT_SIZE: usize = 50 * 1024 * 1024;` -/
def FILE_SPLIT_SIZE : Nat := 50 * 1024 * 1024

/-! ## Chunker: `split_bytes` -/

/-- The read loop of `split_bytes`, generalised over the split size `T`.
Each iteration reads `n = min T remaining` bytes (the semantics of
`f.by_ref().take(T).read_to_end(&mut buffer)` on a buffered file);
when `n = 0` (the read returned zero bytes) the loop breaks, otherwise
the `n` bytes read are pushed as one chunk and the loop continues on
the rest of the file. -/
def splitChunks (T : Nat) (l : List Nat) : List (List Nat) :=
  if h : T = 0 ∨ l = [] then []
  else l.take T :: splitChunks T (l.drop T)
termination_by l.length
decreasing_by
  push_neg at h
  have hl : 0 < l.length := List.length_pos.mpr h.2
  simp only [List.length_drop]
  omega

/-- `fn split_bytes(path: PathBuf) -> io::Result<Vec<Vec<u8>>>`, on the byte
content successfully read from the file: the loop above at the fixed split
size `FILE_SPLIT_SIZE`. -/
def split_bytes (file : List Nat) : List (List Nat) :=
  splitChunks FILE_SPLIT_SIZE file

theorem splitChunks_nil (T : Nat) : splitChunks T [] = [] := by
  rw [splitChunks]
  simp

theorem splitChunks_cons (T : Nat) (l : List Nat) (hT : T ≠ 0) (hl : l ≠ []) :
    splitChunks T l = l.take T :: splitChunks T (l.drop T) := by
  rw [splitChunks, dif_neg]
  push_neg
  exact ⟨hT, hl⟩

theorem splitChunks_flatten (T : Nat) (hT : 0 < T) (l : List Nat) :
    (splitChunks T l).flatten = l := by
  generalize hn : l.length = n
  induction n using Nat.strong_induction_on generalizing l with
  | _ n ih =>
    subst hn
    rcases eq_or_ne l [] with rfl | hl
    · simp [splitChunks_nil]
    · rw [splitChunks_cons T l (Nat.pos_iff_ne_zero.mp hT) hl]
      have hlen : 0 < l.length := List.length_pos.mpr hl
      have hdrop : (l.drop T).length < l.length := by
        simp only [List.length_drop]
        omega
      rw [List.flatten_cons, ih _ hdrop _ rfl, List.take_append_drop]

theorem splitChunks_length_le (T : Nat) (l : List Nat) :
    ∀ c ∈ splitChunks T l, c.length ≤ T := by
  generalize hn : l.length = n
  induction n using Nat.strong_induction_on generalizing l with
  | _ n ih =>
    subst hn
    intro c hc
    rcases eq_or_ne l [] with rfl | hl
    · simp [splitChunks_nil] at hc
    · rcases Nat.eq_zero_or_pos T with rfl | hT
      · rw [splitChunks] at hc
        simp at hc
      · rw [splitChunks_cons T l (Nat.pos_iff_ne_zero.mp hT) hl] at hc
        have hlen : 0 < l.length := List.length_pos.mpr hl
        rcases List.mem_cons.mp hc with rfl | hc
        · simpa using Nat.min_le_left T l.length
        · exact ih (l.drop T).length (by simp only [List.length_drop]; omega) _ rfl c hc

theorem splitChunks_ne_nil (T : Nat) (l : List Nat) (hT : 0 < T) :
    ∀ c ∈ splitChunks T l, c ≠ [] := by
  generalize hn : l.length = n
  induction n using Nat.strong_induction_on generalizing l with
  | _ n ih =>
    subst hn
    intro c hc
    rcases eq_or_ne l [] with rfl | hl
    · simp [splitChunks_nil] at hc
    · rw [splitChunks_cons T l (Nat.pos_iff_ne_zero.mp hT) hl] at hc
      have hlen : 0 < l.length := List.length_pos.mpr hl
      rcases List.mem_cons.mp hc with rfl | hc
      · intro habs
        have hlt : min T l.length = 0 := by
          have := congrArg List.length habs
          simpa using this
        simp only [Nat.min_eq_zero_iff] at hlt
        omega
      · exact ih (l.drop T).length (by simp only [List.length_drop]; omega) _ rfl c hc

theorem splitChunks_length (T : Nat) (hT : 0 < T) (l : List Nat) :
    (splitChunks T l).length = (l.length + T - 1) / T := by
  generalize hn : l.length = n
  induction n using Nat.strong_induction_on generalizing l with
  | _ n ih =>
    subst hn
    rcases eq_or_ne l [] with rfl | hl
    · simp only [splitChunks_nil, List.length_nil]
      exact (Nat.div_eq_of_lt (by omega)).symm
    · rw [splitChunks_cons T l (Nat.pos_iff_ne_zero.mp hT) hl]
      have hlen : 0 < l.length := List.length_pos.mpr hl
      have hdrop : (l.drop T).length < l.length := by
        simp only [List.length_drop]
        omega
      rw [List.length_cons, ih _ hdrop _ rfl]
      simp only [List.length_drop]
      have h1 : l.length + T - 1 = (l.length - 1) + T := by omega
      rw [h1, Nat.add_div_right _ hT]
      rcases le_or_lt l.length T with hle | hlt
      · have h2 : l.length - T = 0 := by omega
        rw [h2, Nat.div_eq_of_lt (by omega : 0 + T - 1 < T),
          Nat.div_eq_of_lt (by omega : l.length - 1 < T)]
      · have h3 : l.length - T + T - 1 = (l.length - T - 1) + T := by omega
        have h4 : l.length - 1 = (l.length - T - 1) + T := by omega
        rw [h3, h4, Nat.add_div_right _ hT]

theorem splitChunks_dropLast (T : Nat) (hT : 0 < T) (l : List Nat) :
    ∀ c ∈ (splitChunks T l).dropLast, c.length = T := by
  generalize hn : l.length = n
  induction n using Nat.strong_induction_on generalizing l with
  | _ n ih =>
    subst hn
    intro c hc
    rcases eq_or_ne l [] with rfl | hl
    · simp [splitChunks_nil] at hc
    · rw [splitChunks_cons T l (Nat.pos_iff_ne_zero.mp hT) hl] at hc
      have hlen : 0 < l.length := List.length_pos.mpr hl
      rcases eq_or_ne (l.drop T) [] with hdnil | hdnil
      · rw [hdnil, splitChunks_nil] at hc
        simp at hc
      · have hrest : splitChunks T (l.drop T) ≠ [] := by
          rw [splitChunks_cons T _ (Nat.pos_iff_ne_zero.mp hT) hdnil]
          simp
        rw [List.dropLast_cons_of_ne_nil hrest] at hc
        rcases List.mem_cons.mp hc with rfl | hc
        · have hTlen : T ≤ l.length := by
            by_contra habs
            push_neg at habs
            exact hdnil (List.drop_eq_nil_of_le (Nat.le_of_lt habs))
          simp only [List.length_take]
          omega
        · exact ih (l.drop T).length (by simp only [List.length_drop]; omega) _ rfl c hc

theorem getLast?_cons_of_ne_nil {α : Type} (a : α) (l : List α) (h : l ≠ []) :
    (a :: l).getLast? = l.getLast? := by
  cases l with
  | nil => exact absurd rfl h
  | cons b t => exact List.getLast?_cons_cons

theorem splitChunks_getLast (T : Nat) (hT : 0 < T) (l : List Nat) (hl : l ≠ []) :
    (splitChunks T l).getLast?.map List.length =
      some (if l.length % T = 0 then T else l.length % T) := by
  generalize hn : l.length = n
  induction n using Nat.strong_induction_on generalizing l with
  | _ n ih =>
    subst hn
    rw [splitChunks_cons T l (Nat.pos_iff_ne_zero.mp hT) hl]
    have hlen : 0 < l.length := List.length_pos.mpr hl
    rcases eq_or_ne (l.drop T) [] with hdnil | hdnil
    · have hTlen : l.length ≤ T := by
        by_contra habs
        push_neg at habs
        have hz : (l.drop T).length = 0 := by rw [hdnil]; rfl
        simp only [List.length_drop] at hz
        omega
      rw [hdnil, splitChunks_nil]
      simp only [List.getLast?_singleton, Option.map_some']
      rcases lt_or_ge l.length T with hlt | hge
      · rw [if_neg (by rw [Nat.mod_eq_of_lt hlt]; omega), Nat.mod_eq_of_lt hlt]
        simp only [List.length_take]
        congr 1
        omega
      · have heq : l.length = T := le_antisymm hTlen hge
        rw [if_pos (by rw [heq]; exact Nat.mod_self T)]
        simp only [List.length_take]
        congr 1
        omega
    · have hrest : splitChunks T (l.drop T) ≠ [] := by
        rw [splitChunks_cons T _ (Nat.pos_iff_ne_zero.mp hT) hdnil]
        simp
      rw [getLast?_cons_of_ne_nil _ _ hrest]
      have hTlen : T ≤ l.length := by
        by_contra habs
        push_neg at habs
        exact hdnil (List.drop_eq_nil_of_le (Nat.le_of_lt habs))
      have hdroplen : (l.drop T).length < l.length := by
        simp only [List.length_drop]
        omega
      rw [ih _ hdroplen _ hdnil rfl]
      simp only [List.length_drop]
      have hmod : (l.length - T) % T = l.length % T := by
        conv_rhs => rw [← Nat.sub_add_cancel hTlen]
        rw [Nat.add_mod_right]
      rw [hmod]

/-! ## Data model: `Config`, `R2Multipart`, `R2Part`, outcomes, requests -/

/-- `struct Config { token, api_url, concurrent_requests }`. -/
structure Config where
  token : String
  api_url : String
  concurrent_requests : Nat
deriving DecidableEq

/-- `impl Default for Config`. -/
def Config.default : Config :=
  { token := "MISSING_TOKEN", api_url := "MISSING_API", concurrent_requests := 2 }

/-- `struct R2Multipart { key, upload_id }` (decoded from the Init JSON). -/
structure R2Multipart where
  key : String
  upload_id : String
deriving DecidableEq

/-- `struct R2Part { part_number, etag }` (decoded from a part response). -/
structure R2Part where
  part_number : Nat
  etag : String
deriving DecidableEq

/-- How one step of the program finishes.  `ok` is `Ok(v)`; `clientError m`
is `Err(Box::new(ClientError { message: m }))` (the typed, recoverable
error); `transportError e` is an error propagated by the `?` operator
(reqwest / io / JSON-decode failure); `panicked msg` is `panic!`
(abnormal process termination). -/
inductive Outcome (α : Type) where
  | ok (value : α)
  | clientError (message : String)
  | transportError (e : String)
  | panicked (msg : String)
deriving DecidableEq

/-- An HTTP response already read back as text: status code and body. -/
structure Response where
  status : Nat
  body : String
deriving DecidableEq

/-- The HTTP requests the program can issue, with the exact URL strings the
code builds.  `post` carries a raw byte body (single upload), `postEmpty`
has no body (multipart init), `put` carries a chunk (part upload),
`postJson` carries the serialised `Vec<R2Part>` (multipart completion). -/
inductive Request where
  | post (url : String) (bearer : String) (body : List Nat)
  | postEmpty (url : String) (bearer : String)
  | put (url : String) (bearer : String) (body : List Nat)
  | postJson (url : String) (bearer : String) (body : List R2Part)
deriving DecidableEq

/-! ## Paths and the `file_name().unwrap().to_str().unwrap()` idiom

A Rust `Path` is modelled by its parsed component list (as produced by
`Path::components()`, so already normalised).  A `normal` component records
whether its `OsStr` is valid UTF-8 together with its textual name. -/

inductive PathComponent where
  | rootDir
  | parentDir
  | normal (utf8 : Bool) (name : String)
deriving DecidableEq

/-- A parsed path: its component list. -/
abbrev RPath := List PathComponent

/-- `Path::file_name()`: the final component when it is a normal component,
`None` when the path is empty, is a root, or ends in `..`. -/
def file_name (p : RPath) : Option (Bool × String) :=
  match p.getLast? with
  | some (.normal utf8 name) => some (utf8, name)
  | _ => none

/-- `OsStr::to_str()`: `Some` exactly when the name is valid UTF-8. -/
def to_str (c : Bool × String) : Option String :=
  if c.1 then some c.2 else none

/-- `path.file_name().unwrap().to_str().unwrap()`: the base name on
success, a panic when either `Option` is `None`. -/
def file_name_unwrap (p : RPath) : Outcome String :=
  match file_name p with
  | none => .panicked "called Option::unwrap on a None value"
  | some c =>
    match to_str c with
    | none => .panicked "called Option::unwrap on a None value"
    | some s => .ok s

/-! ## Single-Shot Uploader: `single_upload` -/

/-- Environment for one `single_upload` run: what `File::open` +
`read_to_end` produced, and the transport result of the one POST. -/
structure SingleEnv where
  readFile : Except String (List Nat)
  response : Except String Response

/-- `async fn single_upload(path, config) -> Result<String, Box<dyn Error>>`:
read the whole file, POST it to `{api_url}/upload/{file_name}` with the
bearer token, then match on the status code (200 / 400 / 401 / panic).
Returns the outcome together with the list of requests actually sent. -/
def single_upload (path : RPath) (config : Config) (env : SingleEnv) :
    Outcome String × List Request :=
  match env.readFile with
  | .error e => (.transportError e, [])
  | .ok buf =>
    match file_name_unwrap path with
    | .ok name =>
      let req := Request.post (config.api_url ++ "/upload/" ++ name) config.token buf
      match env.response with
      | .error e => (.transportError e, [req])
      | .ok res =>
        if res.status = 200 then (.ok res.body, [req])
        else if res.status = 400 then (.clientError res.body, [req])
        else if res.status = 401 then (.clientError "Wrong token", [req])
        else (.panicked ("Unexpected status code: " ++ toString res.status), [req])
    | .panicked s => (.panicked s, [])
    | .clientError m => (.clientError m, [])
    | .transportError e => (.transportError e, [])

/-! ## Multipart Coordinator: `multipart_upload`

The three phases of `multipart_upload` with the network abstracted into an
environment.  The order in which `buffer_unordered(2)` yields the part
results is runtime nondeterminism; it enters the model as the explicit
`order` argument (the completion order, a list of 0-based chunk indices),
and the transition system further below characterises exactly which orders
the width-2 pool can produce. -/

/-- Environment for one `multipart_upload` run. `init` is the combined
transport+decode result of the Init call; `partResp` gives the transport
result of the PUT for each 0-based chunk index; `decodePart i` is the
result of `resp.json::<R2Part>()` on part `i`'s response body;
`completeResp` is the transport result of the completion POST. -/
structure Env where
  init : Except String R2Multipart
  partResp : Nat → Except String Response
  decodePart : Nat → Except String R2Part
  completeResp : Except String Response

/-- The Init request: `POST {api_url}/upload-part/init/{key}` (no body). -/
def initRequest (config : Config) (key : String) : Request :=
  .postEmpty (config.api_url ++ "/upload-part/init/" ++ key) config.token

/-- The part request for 0-based `index`:
`PUT {api_url}/upload-part/put/{key}/{uploadId}?partNumber={index+1}`. -/
def partRequest (config : Config) (m : R2Multipart) (index : Nat) (part : List Nat) :
    Request :=
  .put (config.api_url ++ "/upload-part/put/" ++ m.key ++ "/" ++ m.upload_id
        ++ "?partNumber=" ++ toString (index + 1)) config.token part

/-- The completion request:
`POST {api_url}/upload-part/finish/{key}/{uploadId}` with the collected
`R2Part` list as JSON body. -/
def completeRequest (config : Config) (m : R2Multipart) (uploadedParts : List R2Part) :
    Request :=
  .postJson (config.api_url ++ "/upload-part/finish/" ++ m.key ++ "/" ++ m.upload_id)
    config.token uploadedParts

/-- The async block run for one chunk inside the `map`: send the PUT
(`?` propagates transport errors), panic if the status is not 200,
otherwise decode the body as `R2Part` (`?` propagates decode errors). -/
def upload_part_task (config : Config) (m : R2Multipart) (env : Env)
    (index : Nat) (part : List Nat) : Outcome R2Part :=
  match env.partResp index with
  | .error e => .transportError e
  | .ok resp =>
    if resp.status ≠ 200 then
      .panicked ("Unexpected status code (" ++ toString resp.status ++ "): " ++ resp.body)
    else
      match env.decodePart index with
      | .error e => .transportError e
      | .ok p => .ok p
  -- `part` is the request body; it does not influence the modelled outcome
  -- but keeps the task's signature equal to the code's closure.

/-- `try_collect::<Vec<_>>()` over the stream of task outcomes in yield
order: the first non-`ok` outcome aborts the collection. -/
def collectOutcomes {α : Type} : List (Outcome α) → Outcome (List α)
  | [] => .ok []
  | o :: rest =>
    match o with
    | .ok a =>
      match collectOutcomes rest with
      | .ok as => .ok (a :: as)
      | .clientError m => .clientError m
      | .transportError e => .transportError e
      | .panicked s => .panicked s
    | .clientError m => .clientError m
    | .transportError e => .transportError e
    | .panicked s => .panicked s

/-- The task outcomes in the completion order `order` (each element of
`order` is a 0-based chunk index into `parts`). -/
def part_tasks (config : Config) (m : R2Multipart) (parts : List (List Nat))
    (env : Env) (order : List Nat) : List (Outcome R2Part) :=
  order.map (fun i => upload_part_task config m env i (parts.getD i []))

/-- `uploaded_parts = parts.try_collect::<Vec<_>>().await?`: the collected
`R2Part`s, in the order `buffer_unordered` yielded them. -/
def collected_parts (config : Config) (m : R2Multipart) (parts : List (List Nat))
    (env : Env) (order : List Nat) : Outcome (List R2Part) :=
  collectOutcomes (part_tasks config m parts env order)

/-- The status match at the end of `multipart_upload`: 200 yields the body,
anything else panics with status and body. -/
def handle_complete_response (resp : Response) : Outcome String :=
  if resp.status = 200 then .ok resp.body
  else .panicked ("Unexpected status code (" ++ toString resp.status ++ "): " ++ resp.body)

/-- `async fn multipart_upload(key, parts, config)`: Init, then the
bounded-concurrency Part Upload phase (with completion order `order`),
then Complete.  Returns the outcome and the requests issued, in issue
order. -/
def multipart_upload (key : String) (parts : List (List Nat)) (config : Config)
    (env : Env) (order : List Nat) : Outcome String × List Request :=
  match env.init with
  | .error e => (.transportError e, [initRequest config key])
  | .ok m =>
    let partReqs := order.map (fun i => partRequest config m i (parts.getD i []))
    let reqs1 := initRequest config key :: partReqs
    match collected_parts config m parts env order with
    | .clientError msg => (.clientError msg, reqs1)
    | .transportError e => (.transportError e, reqs1)
    | .panicked s => (.panicked s, reqs1)
    | .ok uploadedParts =>
      let reqs2 := reqs1 ++ [completeRequest config m uploadedParts]
      match env.completeResp with
      | .error e => (.transportError e, reqs2)
      | .ok resp => (handle_complete_response resp, reqs2)

/-! ## The `buffer_unordered(2)` scheduler

`stream::iter(parts).enumerate().map(...).buffer_unordered(2)` starts the
tasks in input order, keeps at most 2 unfinished tasks in flight, and
yields each task's result as it completes.  A scheduler state records how
many tasks have been started, which started tasks are unfinished, and the
indices already yielded, in yield order. -/

/-- The literal argument of `buffer_unordered(2)` in the source. -/
def bufCap : Nat := 2

structure SchedState where
  nextToStart : Nat
  inflight : List Nat
  completed : List Nat
deriving DecidableEq

/-- Initial scheduler state: nothing started. -/
def initState : SchedState := ⟨0, [], []⟩

/-- One scheduler step for pool width `cap` over `n` tasks: either start
the next task of the input stream (only while fewer than `cap` are in
flight), or let some in-flight task finish, yielding its result. -/
inductive SchedStep (cap n : Nat) : SchedState → SchedState → Prop where
  | start (s : SchedState) (hcap : s.inflight.length < cap) (hn : s.nextToStart < n) :
      SchedStep cap n s ⟨s.nextToStart + 1, s.inflight ++ [s.nextToStart], s.completed⟩
  | finish (s : SchedState) (i : Nat) (hi : i ∈ s.inflight) :
      SchedStep cap n s ⟨s.nextToStart, s.inflight.erase i, s.completed ++ [i]⟩

/-- `order` is a completion order the width-`cap` pool can produce on `n`
tasks: some full run (all `n` tasks started and finished) yields exactly
`order`. -/
def ValidCompletionOrder (cap n : Nat) (order : List Nat) : Prop :=
  Relation.ReflTransGen (SchedStep cap n) initState ⟨n, [], order⟩

/-! ## Dispatch: `main` -/

/-- The three upload components of the system, for recording which ones a
`main` run invokes. -/
inductive Component where
  | singleShot
  | chunker
  | multipartCoordinator
deriving DecidableEq

/-- Environment for one `main` run: the file size from `metadata.len()`,
the byte content `split_bytes` reads, the single-upload environment, the
multipart environment and the part-completion order. -/
structure MainEnv where
  fileSize : Nat
  fileBytes : List Nat
  senv : SingleEnv
  menv : Env
  order : List Nat

/-- Result of a `main` run: the components invoked, the final `println!`
output (when reached), and how the process finished. -/
structure MainResult where
  invoked : List Component
  printed : Option String
  outcome : Outcome Unit
deriving DecidableEq

/-- `async fn main()`: compare `metadata.len()` with `FILE_SPLIT_SIZE`;
at or below the threshold run `single_upload`, otherwise compute the key
(`file_name().unwrap().to_str().unwrap()`), chunk the file with
`split_bytes` and run `multipart_upload`; on success print
`{api_url}/{location}`. -/
def main (config : Config) (path : RPath) (env : MainEnv) : MainResult :=
  if env.fileSize ≤ FILE_SPLIT_SIZE then
    match (single_upload path config env.senv).1 with
    | .ok res => ⟨[.singleShot], some (config.api_url ++ "/" ++ res), .ok ()⟩
    | .clientError m => ⟨[.singleShot], none, .clientError m⟩
    | .transportError e => ⟨[.singleShot], none, .transportError e⟩
    | .panicked s => ⟨[.singleShot], none, .panicked s⟩
  else
    match file_name_unwrap path with
    | .ok key =>
      let splits := split_bytes env.fileBytes
      match (multipart_upload key splits config env.menv env.order).1 with
      | .ok res =>
          ⟨[.chunker, .multipartCoordinator], some (config.api_url ++ "/" ++ res), .ok ()⟩
      | .clientError m => ⟨[.chunker, .multipartCoordinator], none, .clientError m⟩
      | .transportError e => ⟨[.chunker, .multipartCoordinator], none, .transportError e⟩
      | .panicked s => ⟨[.chunker, .multipartCoordinator], none, .panicked s⟩
    | .panicked s => ⟨[], none, .panicked s⟩
    | .clientError m => ⟨[], none, .clientError m⟩
    | .transportError e => ⟨[], none, .transportError e⟩

/-! ## Scheduler lemmas -/

/-- Along every reachable scheduler state, the number of in-flight tasks
never exceeds the pool width. -/
theorem sched_inflight_le (cap n : Nat) (s : SchedState)
    (h : Relation.ReflTransGen (SchedStep cap n) initState s) :
    s.inflight.length ≤ cap := by
  induction h with
  | refl => simp [initState]
  | tail hr hstep ih =>
    rename_i s1 s2
    cases hstep with
    | start hcap hn =>
      show (s1.inflight ++ [s1.nextToStart]).length ≤ cap
      simp only [List.length_append, List.length_singleton]
      omega
    | finish i hi =>
      show (s1.inflight.erase i).length ≤ cap
      have hsub := (List.erase_sublist i s1.inflight).length_le
      omega

/-- Invariant: the yielded indices followed by the in-flight indices are a
permutation of the started indices `range nextToStart`, and at most `n`
tasks have been started. -/
theorem sched_perm_invariant (cap n : Nat) (s : SchedState)
    (h : Relation.ReflTransGen (SchedStep cap n) initState s) :
    (s.completed ++ s.inflight).Perm (List.range s.nextToStart) ∧ s.nextToStart ≤ n := by
  induction h with
  | refl => simp [initState]
  | tail hr hstep ih =>
    rename_i s1 s2
    cases hstep with
    | start hcap hn =>
      constructor
      · show (s1.completed ++ (s1.inflight ++ [s1.nextToStart])).Perm
          (List.range (s1.nextToStart + 1))
        rw [List.range_succ, ← List.append_assoc]
        exact ih.1.append_right [s1.nextToStart]
      · show s1.nextToStart + 1 ≤ n
        omega
    | finish i hi =>
      refine ⟨?_, ih.2⟩
      show ((s1.completed ++ [i]) ++ s1.inflight.erase i).Perm (List.range s1.nextToStart)
      have hp : s1.inflight.Perm (i :: s1.inflight.erase i) := List.perm_cons_erase hi
      have h1 : (s1.completed ++ [i]) ++ s1.inflight.erase i
          = s1.completed ++ (i :: s1.inflight.erase i) := by simp
      rw [h1]
      exact (List.Perm.append_left s1.completed hp.symm).trans ih.1

/-- A valid completion order of `n` tasks is a permutation of the task
indices `0, …, n-1`. -/
theorem validCompletionOrder_perm (cap n : Nat) (order : List Nat)
    (h : ValidCompletionOrder cap n order) : order.Perm (List.range n) := by
  have := (sched_perm_invariant cap n ⟨n, [], order⟩ h).1
  simpa using this

/-- Collecting a mapped list all of whose outcomes are `ok` yields the
mapped values. -/
theorem collectOutcomes_map_ok {α β : Type} (l : List α) (f : α → Outcome β) (g : α → β)
    (h : ∀ a ∈ l, f a = .ok (g a)) : collectOutcomes (l.map f) = .ok (l.map g) := by
  induction l with
  | nil => rfl
  | cons a t ih =>
    have ha := h a (by simp)
    have ht := ih (fun x hx => h x (by simp [hx]))
    simp [collectOutcomes, ha, ht]

theorem FILE_SPLIT_SIZE_pos : 0 < FILE_SPLIT_SIZE := by
  norm_num [FILE_SPLIT_SIZE]

/-! ## Claims -/

/-- C1: for every readable file, `split_bytes` returns an ordered, finite
sequence of byte chunks, each of length at most 50 MiB
(`FILE_SPLIT_SIZE`), whose in-order concatenation reproduces the file's
byte content exactly. -/
theorem c1_split_bytes_reassembles (file : List Nat) :
    (split_bytes file).flatten = file ∧
      ∀ c ∈ split_bytes file, c.length ≤ FILE_SPLIT_SIZE :=
  ⟨splitChunks_flatten FILE_SPLIT_SIZE FILE_SPLIT_SIZE_pos file,
    splitChunks_length_le FILE_SPLIT_SIZE file⟩

/-- C2: for every file of size `S > 0` split with threshold `T > 0`, the
chunker produces exactly `⌈S / T⌉ = (S + T - 1) / T` chunks; every chunk
except the last has length exactly `T`; the last chunk has length
`S mod T`, or `T` when `T` divides `S`; and no chunk is ever empty (in
particular no trailing empty chunk: production stops once a read returns
zero bytes).  `split_bytes` is this function at `T = FILE_SPLIT_SIZE`. -/
theorem c2_chunk_count_and_sizes (T : Nat) (l : List Nat) (hT : 0 < T) (hl : l ≠ []) :
    (splitChunks T l).length = (l.length + T - 1) / T ∧
    (∀ c ∈ (splitChunks T l).dropLast, c.length = T) ∧
    (splitChunks T l).getLast?.map List.length =
      some (if l.length % T = 0 then T else l.length % T) ∧
    (∀ c ∈ splitChunks T l, c ≠ []) :=
  ⟨splitChunks_length T hT l, splitChunks_dropLast T hT l,
    splitChunks_getLast T hT l hl, splitChunks_ne_nil T l hT⟩

/-- Witness for C2 at `T = 2` and a five-byte file: three chunks, sizes
`[2, 2, 1]`. -/
theorem c2_witness :
    (0 < 2 ∧ ([9, 8, 7, 6, 5] : List Nat) ≠ []) ∧
    ((splitChunks 2 [9, 8, 7, 6, 5]).length = (5 + 2 - 1) / 2 ∧
      (∀ c ∈ (splitChunks 2 [9, 8, 7, 6, 5]).dropLast, c.length = 2) ∧
      (splitChunks 2 [9, 8, 7, 6, 5]).getLast?.map List.length =
        some (if ([9, 8, 7, 6, 5] : List Nat).length % 2 = 0 then 2
          else ([9, 8, 7, 6, 5] : List Nat).length % 2) ∧
      (∀ c ∈ splitChunks 2 [9, 8, 7, 6, 5], c ≠ [])) :=
  ⟨⟨by decide, by decide⟩,
    c2_chunk_count_and_sizes 2 [9, 8, 7, 6, 5] (by decide) (by decide)⟩

/-- Every index in a valid completion order indexes one of the `n` tasks. -/
theorem validCompletionOrder_mem_lt (cap n : Nat) (order : List Nat)
    (h : ValidCompletionOrder cap n order) : ∀ i ∈ order, i < n := by
  intro i hi
  have hp := validCompletionOrder_perm cap n order h
  exact List.mem_range.mp (hp.subset hi)

/-- When every part succeeds with status 200 and decodes to `p i`, the
task for chunk `i` yields `ok (p i)`. -/
theorem upload_part_task_ok (config : Config) (m : R2Multipart) (env : Env)
    (i : Nat) (part : List Nat) (b : String) (p : Nat → R2Part)
    (hresp : env.partResp i = .ok ⟨200, b⟩) (hdec : env.decodePart i = .ok (p i)) :
    upload_part_task config m env i part = .ok (p i) := by
  simp [upload_part_task, hresp, hdec]

/-- C3: for every multipart upload of `N` chunks that reaches the Complete
call (every part succeeded), the list of `PartResult`s sent in the
completion body has exactly `N` entries, one per chunk, whose part numbers
form, up to reordering, the contiguous sequence `1..N` with no duplicates
or gaps — assuming the server echoes each part's number `i + 1` in its
response. -/
theorem c3_completion_body_contiguous (key : String) (config : Config)
    (m : R2Multipart) (parts : List (List Nat)) (env : Env) (order : List Nat)
    (body : Nat → String) (p : Nat → R2Part)
    (hvalid : ValidCompletionOrder bufCap parts.length order)
    (hresp : ∀ i < parts.length, env.partResp i = .ok ⟨200, body i⟩)
    (hdec : ∀ i < parts.length, env.decodePart i = .ok (p i))
    (hecho : ∀ i < parts.length, (p i).part_number = i + 1)
    (hinit : env.init = .ok m) :
    ∃ ups : List R2Part,
      collected_parts config m parts env order = .ok ups ∧
      ups.length = parts.length ∧
      (ups.map R2Part.part_number).Perm ((List.range parts.length).map (· + 1)) ∧
      completeRequest config m ups ∈ (multipart_upload key parts config env order).2 := by
  have hmem := validCompletionOrder_mem_lt bufCap parts.length order hvalid
  have hperm := validCompletionOrder_perm bufCap parts.length order hvalid
  have htask : ∀ i ∈ order,
      upload_part_task config m env i (parts.getD i []) = .ok (p i) := by
    intro i hi
    exact upload_part_task_ok config m env i _ (body i) p (hresp i (hmem i hi))
      (hdec i (hmem i hi))
  have hcollect : collected_parts config m parts env order = .ok (order.map p) := by
    unfold collected_parts part_tasks
    exact collectOutcomes_map_ok order _ p htask
  refine ⟨order.map p, hcollect, ?_, ?_, ?_⟩
  · simp [hperm.length_eq]
  · have hmapeq : (order.map p).map R2Part.part_number = order.map (· + 1) := by
      rw [List.map_map]
      exact List.map_congr_left (fun i hi => hecho i (hmem i hi))
    rw [hmapeq]
    exact hperm.map (· + 1)
  · simp only [multipart_upload, hinit, hcollect]
    cases henv : env.completeResp <;> simp

/-- A concrete full run of the width-2 pool on one task: start it, let it
finish; the yield order is `[0]`. -/
theorem validOrder_single : ValidCompletionOrder bufCap 1 [0] := by
  have h1 : SchedStep bufCap 1 initState ⟨1, [0], []⟩ :=
    SchedStep.start initState (by decide) (by decide)
  have h2 : SchedStep bufCap 1 ⟨1, [0], []⟩ ⟨1, [], [0]⟩ :=
    SchedStep.finish ⟨1, [0], []⟩ 0 (by decide)
  exact Relation.ReflTransGen.tail (Relation.ReflTransGen.single h1) h2

/-- Witness environment: a server that answers every request with status
200, echoes part numbers, and reports location `"loc"`. -/
def echoEnv : Env :=
  { init := .ok ⟨"key", "uid"⟩
    partResp := fun _ => .ok ⟨200, "partbody"⟩
    decodePart := fun i => .ok ⟨i + 1, "etag"⟩
    completeResp := .ok ⟨200, "loc"⟩ }

/-- Witness for C3: one chunk, completion order `[0]`; the completion body
is a one-element list with part number 1. -/
theorem c3_witness :
    (ValidCompletionOrder bufCap ([[42]] : List (List Nat)).length [0] ∧
      echoEnv.init = .ok ⟨"key", "uid"⟩) ∧
    ∃ ups : List R2Part,
      collected_parts ⟨"tok", "api", 2⟩ ⟨"key", "uid"⟩ [[42]] echoEnv [0] = .ok ups ∧
      ups.length = ([[42]] : List (List Nat)).length ∧
      (ups.map R2Part.part_number).Perm
        ((List.range ([[42]] : List (List Nat)).length).map (· + 1)) ∧
      completeRequest ⟨"tok", "api", 2⟩ ⟨"key", "uid"⟩ ups ∈
        (multipart_upload "f.bin" [[42]] ⟨"tok", "api", 2⟩ echoEnv [0]).2 :=
  ⟨⟨validOrder_single, rfl⟩,
    c3_completion_body_contiguous "f.bin" ⟨"tok", "api", 2⟩ ⟨"key", "uid"⟩ [[42]]
      echoEnv [0] (fun _ => "partbody") (fun i => ⟨i + 1, "etag"⟩)
      validOrder_single (fun i _ => rfl) (fun i _ => rfl) (fun i _ => rfl) rfl⟩

/-- A concrete full run of the width-2 pool on two tasks in which task 1
(part number 2) finishes before task 0 (part number 1): the yield order is
`[1, 0]`. -/
theorem validOrder_swapped : ValidCompletionOrder bufCap 2 [1, 0] := by
  have h1 : SchedStep bufCap 2 initState ⟨1, [0], []⟩ :=
    SchedStep.start initState (by decide) (by decide)
  have h2 : SchedStep bufCap 2 ⟨1, [0], []⟩ ⟨2, [0, 1], []⟩ :=
    SchedStep.start ⟨1, [0], []⟩ (by decide) (by decide)
  have h3 : SchedStep bufCap 2 ⟨2, [0, 1], []⟩ ⟨2, [0], [1]⟩ :=
    SchedStep.finish ⟨2, [0, 1], []⟩ 1 (by decide)
  have h4 : SchedStep bufCap 2 ⟨2, [0], [1]⟩ ⟨2, [], [1, 0]⟩ :=
    SchedStep.finish ⟨2, [0], [1]⟩ 0 (by decide)
  exact Relation.ReflTransGen.tail (Relation.ReflTransGen.tail
    (Relation.ReflTransGen.tail (Relation.ReflTransGen.single h1) h2) h3) h4

/-- C4 counterexample: with two chunks the `buffer_unordered(2)` pool can
complete part 2 before part 1; the collected `PartResult` sequence is then
`[part 2, part 1]`, not the original chunk order `[part 1, part 2]`. -/
theorem c4_counterexample :
    ValidCompletionOrder bufCap 2 [1, 0] ∧
    collected_parts ⟨"tok", "api", 2⟩ ⟨"key", "uid"⟩ [[42], [43]] echoEnv [1, 0] =
      .ok [⟨2, "etag"⟩, ⟨1, "etag"⟩] ∧
    ([⟨2, "etag"⟩, ⟨1, "etag"⟩] : List R2Part) ≠ [⟨1, "etag"⟩, ⟨2, "etag"⟩] :=
  ⟨validOrder_swapped, rfl, by decide⟩

/-- C4 (amended): regardless of the order in which the concurrently
dispatched part uploads complete, the sequence of `PartResult`s produced by
the Part Upload phase is the in-order per-chunk result list up to
permutation — one result per chunk, emitted in completion order, but not
necessarily in the original chunk order. -/
theorem c4_collected_is_permutation (config : Config) (m : R2Multipart)
    (parts : List (List Nat)) (env : Env) (order : List Nat)
    (p : Nat → R2Part) (ups : List R2Part)
    (hvalid : ValidCompletionOrder bufCap parts.length order)
    (htask : ∀ i < parts.length,
      upload_part_task config m env i (parts.getD i []) = .ok (p i))
    (hok : collected_parts config m parts env order = .ok ups) :
    ups.Perm ((List.range parts.length).map p) := by
  have hmem := validCompletionOrder_mem_lt bufCap parts.length order hvalid
  have hperm := validCompletionOrder_perm bufCap parts.length order hvalid
  have hcollect : collected_parts config m parts env order = .ok (order.map p) := by
    unfold collected_parts part_tasks
    exact collectOutcomes_map_ok order _ p (fun i hi => htask i (hmem i hi))
  rw [hcollect] at hok
  cases hok
  exact hperm.map p

/-- Witness for C4 (amended) at the swapped completion order `[1, 0]`. -/
theorem c4_witness :
    (ValidCompletionOrder bufCap ([[42], [43]] : List (List Nat)).length [1, 0] ∧
      collected_parts ⟨"tok", "api", 2⟩ ⟨"key", "uid"⟩ [[42], [43]] echoEnv [1, 0] =
        .ok [⟨2, "etag"⟩, ⟨1, "etag"⟩]) ∧
    ([⟨2, "etag"⟩, ⟨1, "etag"⟩] : List R2Part).Perm
      ((List.range ([[42], [43]] : List (List Nat)).length).map
        (fun i => (⟨i + 1, "etag"⟩ : R2Part))) :=
  ⟨⟨validOrder_swapped, rfl⟩,
    c4_collected_is_permutation ⟨"tok", "api", 2⟩ ⟨"key", "uid"⟩ [[42], [43]]
      echoEnv [1, 0] (fun i => ⟨i + 1, "etag"⟩) [⟨2, "etag"⟩, ⟨1, "etag"⟩]
      validOrder_swapped (fun i _ => rfl) rfl⟩

/-- A path whose final component is a valid-UTF-8 name makes the
`file_name().unwrap().to_str().unwrap()` idiom succeed with that name. -/
theorem file_name_unwrap_ok (path : RPath) (name : String)
    (hname : file_name path = some (true, name)) :
    file_name_unwrap path = .ok name := by
  simp [file_name_unwrap, hname, to_str]

/-- C5: Dispatch routes on file size.  At or below the 50 MiB threshold,
`main` invokes the Single-Shot Uploader exactly once and neither the
Chunker nor the Multipart Coordinator; above the threshold it invokes the
Chunker and then the Multipart Coordinator and never the Single-Shot
Uploader; in both paths the printed user-visible result is the configured
base API URL, `"/"`, and the returned relative location. -/
theorem c5_dispatch_routes_on_size (config : Config) (path : RPath) (env : MainEnv)
    (name : String) (hname : file_name path = some (true, name)) :
    (env.fileSize ≤ FILE_SPLIT_SIZE →
      (main config path env).invoked = [Component.singleShot]) ∧
    (FILE_SPLIT_SIZE < env.fileSize →
      (main config path env).invoked =
        [Component.chunker, Component.multipartCoordinator]) ∧
    (∀ res, env.fileSize ≤ FILE_SPLIT_SIZE →
      (single_upload path config env.senv).1 = .ok res →
      (main config path env).printed = some (config.api_url ++ "/" ++ res)) ∧
    (∀ res, FILE_SPLIT_SIZE < env.fileSize →
      (multipart_upload name (split_bytes env.fileBytes) config env.menv env.order).1 =
        .ok res →
      (main config path env).printed = some (config.api_url ++ "/" ++ res)) := by
  have hunwrap := file_name_unwrap_ok path name hname
  refine ⟨?_, ?_, ?_, ?_⟩
  · intro hle
    simp only [main, if_pos hle]
    cases h : (single_upload path config env.senv).1 <;> simp
  · intro hgt
    simp only [main, if_neg (by omega : ¬ env.fileSize ≤ FILE_SPLIT_SIZE), hunwrap]
    cases h : (multipart_upload name (split_bytes env.fileBytes) config
        env.menv env.order).1 <;> simp
  · intro res hle hok
    simp only [main, if_pos hle, hok]
  · intro res hgt hok
    simp only [main, if_neg (by omega : ¬ env.fileSize ≤ FILE_SPLIT_SIZE), hunwrap, hok]

/-- Witness for C5: a file one byte over the threshold, a valid file name,
a server answering 200/`"loc"` everywhere. -/
theorem c5_witness :
    file_name [.normal true "f.bin"] = some (true, "f.bin") ∧
    (main ⟨"tok", "api", 2⟩ [.normal true "f.bin"]
        ⟨FILE_SPLIT_SIZE + 1, [7], ⟨.ok [7], .ok ⟨200, "loc"⟩⟩, echoEnv, [0]⟩).invoked =
      [Component.chunker, Component.multipartCoordinator] := by
  constructor
  · rfl
  · exact (c5_dispatch_routes_on_size ⟨"tok", "api", 2⟩ [.normal true "f.bin"]
      ⟨FILE_SPLIT_SIZE + 1, [7], ⟨.ok [7], .ok ⟨200, "loc"⟩⟩, echoEnv, [0]⟩
      "f.bin" rfl).2.1 (Nat.lt_succ_self FILE_SPLIT_SIZE)

/-- C6: single-shot response handling.  Status 200 returns the response
body (the relative location); status 400 returns the typed `ClientError`
whose message is the server's literal body; status 401 returns the typed
`ClientError` with the fixed message `"Wrong token"`, not the server
body. -/
theorem c6_single_upload_statuses (path : RPath) (config : Config) (env : SingleEnv)
    (buf : List Nat) (name : String) (body : String)
    (hread : env.readFile = .ok buf) (hname : file_name path = some (true, name)) :
    (env.response = .ok ⟨200, body⟩ → (single_upload path config env).1 = .ok body) ∧
    (env.response = .ok ⟨400, body⟩ →
      (single_upload path config env).1 = .clientError body) ∧
    (env.response = .ok ⟨401, body⟩ →
      (single_upload path config env).1 = .clientError "Wrong token") := by
  have hunwrap := file_name_unwrap_ok path name hname
  refine ⟨?_, ?_, ?_⟩ <;> intro hresp <;>
    simp [single_upload, hread, hunwrap, hresp]

/-- Witness for C6 at status 401: the result is the fixed wrong-credential
message even though the server body says `"denied"`. -/
theorem c6_witness :
    ((⟨.ok [7], .ok ⟨401, "denied"⟩⟩ : SingleEnv).readFile = .ok [7] ∧
      file_name [.normal true "f.bin"] = some (true, "f.bin") ∧
      (⟨.ok [7], .ok ⟨401, "denied"⟩⟩ : SingleEnv).response = .ok ⟨401, "denied"⟩) ∧
    (single_upload [.normal true "f.bin"] ⟨"tok", "api", 2⟩
        ⟨.ok [7], .ok ⟨401, "denied"⟩⟩).1 = .clientError "Wrong token" :=
  ⟨⟨rfl, rfl, rfl⟩,
    (c6_single_upload_statuses [.normal true "f.bin"] ⟨"tok", "api", 2⟩
      ⟨.ok [7], .ok ⟨401, "denied"⟩⟩ [7] "f.bin" "denied" rfl rfl).2.2 rfl⟩

/-- C7: if the Init call fails (transport error or undecodable JSON),
`multipart_upload` returns that error having issued only the Init request:
no part-upload request and no completion request is ever sent. -/
theorem c7_init_failure_aborts (key : String) (parts : List (List Nat))
    (config : Config) (env : Env) (order : List Nat) (e : String)
    (hinit : env.init = .error e) :
    multipart_upload key parts config env order =
      (.transportError e, [initRequest config key]) := by
  simp [multipart_upload, hinit]

/-- Witness for C7: a failing Init on a two-chunk upload. -/
theorem c7_witness :
    (⟨.error "connection refused", fun _ => .ok ⟨200, ""⟩, fun i => .ok ⟨i + 1, "e"⟩,
        .ok ⟨200, "loc"⟩⟩ : Env).init = .error "connection refused" ∧
    multipart_upload "k" [[1], [2]] ⟨"tok", "api", 2⟩
        ⟨.error "connection refused", fun _ => .ok ⟨200, ""⟩,
          fun i => .ok ⟨i + 1, "e"⟩, .ok ⟨200, "loc"⟩⟩ [0, 1] =
      (.transportError "connection refused", [initRequest ⟨"tok", "api", 2⟩ "k"]) :=
  ⟨rfl,
    c7_init_failure_aborts "k" [[1], [2]] ⟨"tok", "api", 2⟩
      ⟨.error "connection refused", fun _ => .ok ⟨200, ""⟩,
        fun i => .ok ⟨i + 1, "e"⟩, .ok ⟨200, "loc"⟩⟩ [0, 1] "connection refused" rfl⟩

/-- C8: in the multipart path a part response with status other than 200,
and a completion response with status other than 200, each cause a panic
carrying the status and body — never the typed recoverable `ClientError`
of the single-shot path. -/
theorem c8_multipart_non200_panics (config : Config) (m : R2Multipart) (env : Env)
    (index : Nat) (part : List Nat) (resp : Response)
    (hresp : env.partResp index = .ok resp) (hstatus : resp.status ≠ 200) :
    upload_part_task config m env index part =
      .panicked ("Unexpected status code (" ++ toString resp.status ++ "): "
        ++ resp.body) ∧
    handle_complete_response resp =
      .panicked ("Unexpected status code (" ++ toString resp.status ++ "): "
        ++ resp.body) := by
  constructor
  · simp [upload_part_task, hresp, hstatus]
  · simp [handle_complete_response, hstatus]

/-- Witness for C8 at a 500 response. -/
theorem c8_witness :
    ((⟨.ok ⟨"k", "u"⟩, fun _ => .ok ⟨500, "boom"⟩, fun i => .ok ⟨i + 1, "e"⟩,
        .ok ⟨200, "loc"⟩⟩ : Env).partResp 0 = .ok ⟨500, "boom"⟩ ∧
      (500 : Nat) ≠ 200) ∧
    (upload_part_task ⟨"tok", "api", 2⟩ ⟨"k", "u"⟩
        ⟨.ok ⟨"k", "u"⟩, fun _ => .ok ⟨500, "boom"⟩, fun i => .ok ⟨i + 1, "e"⟩,
          .ok ⟨200, "loc"⟩⟩ 0 [1] =
        .panicked ("Unexpected status code (" ++ toString (500 : Nat) ++ "): " ++ "boom") ∧
      handle_complete_response ⟨500, "boom"⟩ =
        .panicked ("Unexpected status code (" ++ toString (500 : Nat) ++ "): " ++ "boom")) :=
  ⟨⟨rfl, by decide⟩,
    c8_multipart_non200_panics ⟨"tok", "api", 2⟩ ⟨"k", "u"⟩
      ⟨.ok ⟨"k", "u"⟩, fun _ => .ok ⟨500, "boom"⟩, fun i => .ok ⟨i + 1, "e"⟩,
        .ok ⟨200, "loc"⟩⟩ 0 [1] ⟨500, "boom"⟩ rfl (by decide)⟩

/-- C9: the multipart part-upload phase runs at the hardcoded pool width
`bufCap = 2`, independent of `Config.concurrent_requests`: two configs
agreeing on token and API URL make `multipart_upload` produce identical
outcomes and identical requests, and every reachable scheduler state keeps
at most 2 part uploads in flight. -/
theorem c9_cap_independent_of_config (c1 c2 : Config)
    (htok : c1.token = c2.token) (hurl : c1.api_url = c2.api_url)
    (key : String) (parts : List (List Nat)) (env : Env) (order : List Nat)
    (n : Nat) (s : SchedState)
    (hreach : Relation.ReflTransGen (SchedStep bufCap n) initState s) :
    multipart_upload key parts c1 env order = multipart_upload key parts c2 env order ∧
    s.inflight.length ≤ 2 ∧ bufCap = 2 := by
  obtain ⟨t1, u1, r1⟩ := c1
  obtain ⟨t2, u2, r2⟩ := c2
  have ht : t1 = t2 := htok
  have hu : u1 = u2 := hurl
  subst ht hu
  refine ⟨rfl, ?_, rfl⟩
  have := sched_inflight_le bufCap n s hreach
  simpa [bufCap] using this

/-- Witness for C9: two configs differing only in `concurrent_requests`. -/
theorem c9_witness :
    ((⟨"tok", "api", 7⟩ : Config).token = (⟨"tok", "api", 99⟩ : Config).token ∧
      (⟨"tok", "api", 7⟩ : Config).api_url = (⟨"tok", "api", 99⟩ : Config).api_url) ∧
    (multipart_upload "k" [[1]] ⟨"tok", "api", 7⟩ echoEnv [0] =
        multipart_upload "k" [[1]] ⟨"tok", "api", 99⟩ echoEnv [0] ∧
      initState.inflight.length ≤ 2 ∧ bufCap = 2) :=
  ⟨⟨rfl, rfl⟩,
    c9_cap_independent_of_config ⟨"tok", "api", 7⟩ ⟨"tok", "api", 99⟩ rfl rfl
      "k" [[1]] echoEnv [0] 0 initState Relation.ReflTransGen.refl⟩

/-- C10: when the input path's final component is absent (e.g. it ends in
`..`) or is not valid UTF-8, both `single_upload` and `main` (above the
threshold, at its key computation) panic at the `unwrap` calls instead of
returning a typed error — `main` then invokes no component at all; when
the final component is a valid-UTF-8 name, the unwraps succeed and the
base name is embedded in the single-upload request path. -/
theorem c10_unwrap_panics_or_embeds (path : RPath) (config : Config) (env : MainEnv)
    (buf : List Nat) (hread : env.senv.readFile = .ok buf)
    (hbig : FILE_SPLIT_SIZE < env.fileSize) :
    ((∀ name, file_name path ≠ some (true, name)) →
      (single_upload path config env.senv).1 =
        .panicked "called Option::unwrap on a None value" ∧
      (main config path env).outcome =
        .panicked "called Option::unwrap on a None value" ∧
      (main config path env).invoked = []) ∧
    (∀ name, file_name path = some (true, name) →
      file_name_unwrap path = .ok name ∧
      (single_upload path config env.senv).2 =
        [Request.post (config.api_url ++ "/upload/" ++ name) config.token buf]) := by
  constructor
  · intro hbad
    have hpanic : file_name_unwrap path = .panicked "called Option::unwrap on a None value" := by
      unfold file_name_unwrap
      cases hf : file_name path with
      | none => rfl
      | some c =>
        obtain ⟨b, nm⟩ := c
        cases b with
        | true => exact absurd hf (hbad nm)
        | false => rfl
    refine ⟨?_, ?_, ?_⟩
    · simp [single_upload, hread, hpanic]
    · simp [main, if_neg (by omega : ¬ env.fileSize ≤ FILE_SPLIT_SIZE), hpanic]
    · simp [main, if_neg (by omega : ¬ env.fileSize ≤ FILE_SPLIT_SIZE), hpanic]
  · intro name hname
    have hunwrap := file_name_unwrap_ok path name hname
    refine ⟨hunwrap, ?_⟩
    cases hresp : env.senv.response with
    | error e => simp [single_upload, hread, hunwrap, hresp]
    | ok res =>
      simp only [single_upload, hread, hunwrap, hresp]
      split
      · rfl
      · split
        · rfl
        · split <;> rfl

/-- Witness for C10: the path `".."` makes both `single_upload` and the
above-threshold `main` panic. -/
theorem c10_witness :
    ((⟨FILE_SPLIT_SIZE + 1, [7], ⟨.ok [7], .ok ⟨200, "x"⟩⟩, echoEnv,
        [0]⟩ : MainEnv).senv.readFile = .ok [7] ∧
      FILE_SPLIT_SIZE <
        (⟨FILE_SPLIT_SIZE + 1, [7], ⟨.ok [7], .ok ⟨200, "x"⟩⟩, echoEnv,
          [0]⟩ : MainEnv).fileSize) ∧
    ((single_upload [.parentDir] ⟨"tok", "api", 2⟩ ⟨.ok [7], .ok ⟨200, "x"⟩⟩).1 =
        .panicked "called Option::unwrap on a None value" ∧
      (main ⟨"tok", "api", 2⟩ [.parentDir]
          ⟨FILE_SPLIT_SIZE + 1, [7], ⟨.ok [7], .ok ⟨200, "x"⟩⟩, echoEnv, [0]⟩).outcome =
        .panicked "called Option::unwrap on a None value" ∧
      (main ⟨"tok", "api", 2⟩ [.parentDir]
          ⟨FILE_SPLIT_SIZE + 1, [7], ⟨.ok [7], .ok ⟨200, "x"⟩⟩, echoEnv, [0]⟩).invoked =
        []) :=
  ⟨⟨rfl, Nat.lt_succ_self FILE_SPLIT_SIZE⟩,
    (c10_unwrap_panics_or_embeds [.parentDir] ⟨"tok", "api", 2⟩
      ⟨FILE_SPLIT_SIZE + 1, [7], ⟨.ok [7], .ok ⟨200, "x"⟩⟩, echoEnv, [0]⟩ [7]
      rfl (Nat.lt_succ_self FILE_SPLIT_SIZE)).1 (fun name h => by simp [file_name] at h)⟩

end PDrive
